import Mathlib

/-!
Shallow embedding of the `tracing-tail-sampling` crate
(`src/lib.rs`, `src/opentelemetry/layer.rs`, `src/opentelemetry/span_ext.rs`).

Rust strings are modelled as `List Char` restricted to ASCII content, so one
character corresponds to one byte and Rust byte slicing `s[0..n]` corresponds
to `List.take n` (panicking when `n` exceeds the length).  A Rust computation
that may panic is modelled with `PanicOr`.
-/

namespace TailSampling

/-- Result of a Rust computation that can panic at runtime. -/
inductive PanicOr (α : Type) where
  | panics : PanicOr α
  | ok : α → PanicOr α
  deriving Repr, DecidableEq

/-- Rust string, as a list of (ASCII) characters. -/
abbrev RStr := List Char

/-- `u8::to_ascii_lowercase`: map `A`–`Z` to `a`–`z`, leave everything else. -/
def asciiLower (c : Char) : Char :=
  if 65 ≤ c.toNat ∧ c.toNat ≤ 90 then Char.ofNat (c.toNat + 32) else c

/-- `str::eq_ignore_ascii_case`: equal lengths and pointwise ASCII
case-insensitive equality. -/
def eqIgnoreAsciiCase (a b : RStr) : Bool :=
  a.length == b.length && (a.zip b).all fun p => asciiLower p.1 == asciiLower p.2

/-- `opentelemetry::trace::SpanKind` (layer.rs uses of `otel::SpanKind`). -/
inductive SpanKind where
  | server
  | client
  | producer
  | consumer
  | internal
  deriving Repr, DecidableEq

/-- `opentelemetry::trace::Status`; `Default` for `Status` is `Unset`. -/
inductive Status where
  | unset
  | ok
  | error (description : RStr)
  deriving Repr, DecidableEq

/-- layer.rs `str_to_span_kind` (lines 138–147). -/
def str_to_span_kind (s : RStr) : Option SpanKind :=
  if eqIgnoreAsciiCase s "server".toList then some .server
  else if eqIgnoreAsciiCase s "client".toList then some .client
  else if eqIgnoreAsciiCase s "producer".toList then some .producer
  else if eqIgnoreAsciiCase s "consumer".toList then some .consumer
  else if eqIgnoreAsciiCase s "internal".toList then some .internal
  else none

/-- layer.rs `string_to_status` (lines 149–158).  The third match arm evaluates
the byte slice `s[0.."error".len()]`, which panics when `s` is shorter than
five bytes; the guard is only reached after the `"unset"` and `"ok"` arms
failed. -/
def string_to_status (s : RStr) : PanicOr (Option Status) :=
  if eqIgnoreAsciiCase s "unset".toList then .ok (some .unset)
  else if eqIgnoreAsciiCase s "ok".toList then .ok (some .ok)
  else if s.length < 5 then .panics
  else if eqIgnoreAsciiCase (s.take 5) "error".toList then .ok (some (.error s))
  else .ok none

/-- `opentelemetry::Value` restricted to the variants the embedded code
produces (string, i64, bool, and string arrays; f64 attributes are not
modelled). -/
inductive AttrValue where
  | str (s : RStr)
  | int (i : Int)
  | bool (b : Bool)
  | strArr (a : List RStr)
  deriving Repr, DecidableEq

/-- `opentelemetry::KeyValue`. -/
structure KeyValue where
  key : RStr
  value : AttrValue
  deriving Repr, DecidableEq

/-- `opentelemetry::trace::SpanContext`, reduced to the two identifiers that
`is_valid` inspects; `0` stands for `TraceId::INVALID` / `SpanId::INVALID`. -/
structure SpanContext where
  trace_id : Nat
  span_id : Nat
  deriving Repr, DecidableEq

/-- `SpanContext::is_valid`: both identifiers differ from the invalid (zero)
identifier. -/
def SpanContext.is_valid (cx : SpanContext) : Bool :=
  cx.trace_id != 0 && cx.span_id != 0

/-- `opentelemetry::trace::Link`: a span context plus attributes. -/
structure Link where
  cx : SpanContext
  attributes : List KeyValue
  deriving Repr, DecidableEq

/-- `opentelemetry::trace::Event`, without the wall-clock timestamp and the
dropped-attribute count (real time is outside the embedding). -/
structure OtelEvent where
  name : RStr
  attributes : List KeyValue
  deriving Repr, DecidableEq

/-- `opentelemetry::trace::SpanBuilder`, restricted to the fields layer.rs
reads or writes.  Timestamps are omitted (real time). -/
structure SpanBuilder where
  name : RStr
  span_kind : Option SpanKind
  status : Status
  trace_id : Option Nat
  span_id : Option Nat
  attributes : Option (List KeyValue)
  events : Option (List OtelEvent)
  links : Option (List Link)
  deriving Repr, DecidableEq

/-- `OtelData` (declared in the crate's `opentelemetry` module root; its two
fields are fixed by the destructuring patterns in layer.rs): the span builder
plus the parent `opentelemetry::Context` captured at span creation.  The
parent context is modelled as an opaque identifier. -/
structure OtelData where
  builder : SpanBuilder
  parent_cx : Nat
  deriving Repr, DecidableEq

/-- layer.rs constant `SPAN_NAME_FIELD = "otel.name"`. -/
def SPAN_NAME_FIELD : RStr := "otel.name".toList

/-- layer.rs constant `SPAN_KIND_FIELD = "otel.kind"`. -/
def SPAN_KIND_FIELD : RStr := "otel.kind".toList

/-- layer.rs constant `SPAN_STATUS = "otel.status"`. -/
def SPAN_STATUS : RStr := "otel.status".toList

/-- `SpanAttributeVisitor::record` (layer.rs lines 246–253): push the
attribute onto `builder.attributes` when the vector is present (the
`debug_assert!` branch where it is absent leaves the builder unchanged). -/
def SpanAttributeVisitor.record (b : SpanBuilder) (kv : KeyValue) :
    SpanBuilder :=
  match b.attributes with
  | some v => { b with attributes := some (v ++ [kv]) }
  | none => b

/-- `SpanAttributeVisitor::record_bool`. -/
def SpanAttributeVisitor.record_bool (b : SpanBuilder) (fieldName : RStr)
    (value : Bool) : SpanBuilder :=
  SpanAttributeVisitor.record b ⟨fieldName, .bool value⟩

/-- `SpanAttributeVisitor::record_i64`. -/
def SpanAttributeVisitor.record_i64 (b : SpanBuilder) (fieldName : RStr)
    (value : Int) : SpanBuilder :=
  SpanAttributeVisitor.record b ⟨fieldName, .int value⟩

/-- `SpanAttributeVisitor::record_str` (layer.rs lines 280–287): the three
reserved field names divert to the typed `name`/`span_kind`/`status` slots;
everything else becomes an attribute.  `unwrap_or_default()` maps a `None`
status to `Status::Unset`, and a panic inside `string_to_status`
propagates. -/
def SpanAttributeVisitor.record_str (b : SpanBuilder) (fieldName value : RStr) :
    PanicOr SpanBuilder :=
  if fieldName = SPAN_NAME_FIELD then .ok { b with name := value }
  else if fieldName = SPAN_KIND_FIELD then
    .ok { b with span_kind := str_to_span_kind value }
  else if fieldName = SPAN_STATUS then
    match string_to_status value with
    | .panics => .panics
    | .ok st => .ok { b with status := st.getD Status.unset }
  else .ok (SpanAttributeVisitor.record b ⟨fieldName, .str value⟩)

/-- The `source` chain of a Rust error value: `leaf` has no source.  (This
mirrors the shape the layer.rs test `records_error_fields` builds with its
`DynError` type.) -/
inductive DynError where
  | leaf (msg : RStr)
  | cons (msg : RStr) (source : DynError)
  deriving Repr, DecidableEq

/-- `format!("{}", err)`: the error's own display string. -/
def DynError.display : DynError → RStr
  | .leaf m => m
  | .cons m _ => m

/-- The `while let Some(err) = next_err` loop of `record_error`: display
strings of the sources, outermost cause first, the error's own message
excluded. -/
def DynError.causeChain : DynError → List RStr
  | .leaf _ => []
  | .cons _ s => s.display :: s.causeChain

/-- `SpanAttributeVisitor::record_error` (layer.rs lines 309–332): record the
display string under the field name, then the cause chain as a string array
under `"<field>.chain"`. -/
def SpanAttributeVisitor.record_error (b : SpanBuilder) (fieldName : RStr)
    (value : DynError) : SpanBuilder :=
  SpanAttributeVisitor.record
    (SpanAttributeVisitor.record b ⟨fieldName, .str value.display⟩)
    ⟨fieldName ++ ".chain".toList, .strArr value.causeChain⟩

/-- `SpanEventVisitor::record_str` (layer.rs lines 211–223): the field named
`"message"` sets the event's name; other fields become event attributes.
(The `log.`-prefix arm is behind the disabled `tracing-log` feature.) -/
def SpanEventVisitor.record_str (e : OtelEvent) (fieldName value : RStr) :
    OtelEvent :=
  if fieldName = "message".toList then { e with name := value }
  else { e with attributes := e.attributes ++ [⟨fieldName, .str value⟩] }

/-- span_ext.rs `add_link_with_attributes` (lines 164–183), reduced to its
effect on the span's `OtelData`: when the context is valid, append a link to
`builder.links` (creating the vector on first use); otherwise do nothing. -/
def add_link_with_attributes (data : OtelData) (cx : SpanContext)
    (attributes : List KeyValue) : OtelData :=
  if cx.is_valid then
    { data with builder :=
        { data.builder with
            links := some ((data.builder.links.getD []) ++ [⟨cx, attributes⟩]) } }
  else data

/-- span_ext.rs `add_link` (lines 160–162). -/
def add_link (data : OtelData) (cx : SpanContext) : OtelData :=
  add_link_with_attributes data cx []

/-- lib.rs `TraceContext` (lines 77–82): per-span identifiers plus the parent
identifier.  The shared `Arc<Trace>` handle is represented by `trace_id`
keying into the system state's per-trace stores. -/
structure TraceContext where
  span_id : Nat
  trace_id : Nat
  parent_id : Option Nat
  deriving Repr, DecidableEq

/-- `Uuid::new_v4()` modelled as a counter supply: the generator state is the
next unused identifier, so every identifier below it may already be in use
and every identifier from it upwards is fresh. -/
abbrev IdGen := Nat

/-- lib.rs `TraceContext::new` (lines 101–107): fresh span id, fresh trace id,
no parent.  Returns the context together with the advanced generator. -/
def TraceContext.new (g : IdGen) : TraceContext × IdGen :=
  (⟨g, g + 1, none⟩, g + 2)

/-- lib.rs `TraceContext::child` (lines 109–115): fresh span id, the parent's
trace id, and `parent_id` = the parent's span id. -/
def TraceContext.child (c : TraceContext) (g : IdGen) : TraceContext × IdGen :=
  (⟨g, c.trace_id, some c.span_id⟩, g + 1)

/-- lib.rs `TailSampleLayer::parent_span` (lines 188–196): an explicit parent
wins; else a contextual span uses the currently active span; else none. -/
def parent_span (explicitParent : Option Nat) (is_contextual : Bool)
    (current : Option Nat) : Option Nat :=
  match explicitParent with
  | some p => some p
  | none => if is_contextual then current else none

/-- The trace-context derivation of lib.rs `on_new_span` (lines 125–150):
given the resolved parent's extension-store `TraceContext` slot (`none` when
no parent span was resolved), derive a child context from the parent's
context, or fall back to a brand-new root context. -/
def on_new_span_trace_context (parentSlot : Option (Option TraceContext))
    (g : IdGen) : TraceContext × IdGen :=
  match parentSlot with
  | some (some p) => p.child g
  | some none => TraceContext.new g
  | none => TraceContext.new g

/-- `SampleDecision` (declared at the crate root; layer.rs reads its single
`record_trace` flag at line 705). -/
structure SampleDecision where
  record_trace : Bool
  deriving Repr, DecidableEq

/-- The trace-level extension store, restricted to the two typed slots
layer.rs touches: the `TraceCache` (the buffered spans of the trace, `none`
while the cache extension has not been inserted) and the `SampleDecision`. -/
structure TraceStore where
  cache : Option (List OtelData)
  sample_decision : Option SampleDecision
  deriving Repr, DecidableEq

/-- The shared state the export layer manipulates: the per-span extension
slots for `OtelData` and `TraceContext`, the per-trace extension stores
(keyed by trace id, standing for the shared `Arc<Trace>`), the identifiers of
registered spans and live traces, and the list of records handed to the
downstream exporter (`SpanBuilder::start_with_context` calls), in order. -/
structure SysState where
  spanOtel : Nat → Option OtelData
  spanTctx : Nat → Option TraceContext
  traceExt : Nat → TraceStore
  spanDom : List Nat
  traceDom : List Nat
  exported : List OtelData

/-- layer.rs `TraceCache::send_trace` (lines 53–63) followed by the
surrounding store update: the buffer is taken out (leaving it empty) and
every buffered record is started with its own captured parent context, in
buffer order.  Returns the emptied cache value and the records to export. -/
def TraceCache.send_trace (spans : List OtelData) :
    List OtelData × List OtelData :=
  ([], spans)

/-- layer.rs `OpenTelemetryLayer::on_close` (lines 672–727).  The busy/idle
timing attributes and the end timestamp (real time) are omitted; they only
mutate the closing record in place and move with it.
* No `OtelData` in the span's store: nothing happens.
* Otherwise the record is removed from the span's store.  With no
  `TraceContext` the record is exported standalone.  With one, the trace's
  cache is created on first use, the record is appended, and only a root
  (`parent_id = none`) flushes: export the whole buffer when the trace's
  `SampleDecision` is absent or has `record_trace = true`, else clear it. -/
def on_close (st : SysState) (sid : Nat) : SysState :=
  match st.spanOtel sid with
  | none => st
  | some data =>
    let st1 := { st with spanOtel := Function.update st.spanOtel sid none }
    match st.spanTctx sid with
    | none => { st1 with exported := st1.exported ++ [data] }
    | some tc =>
      let tr := st.traceExt tc.trace_id
      let record_trace := (tr.sample_decision.map SampleDecision.record_trace).getD true
      let cache1 := tr.cache.getD [] ++ [data]
      if tc.parent_id = none then
        if record_trace then
          { st1 with
              traceExt := Function.update st.traceExt tc.trace_id
                { tr with cache := some (TraceCache.send_trace cache1).1 },
              exported := st1.exported ++ (TraceCache.send_trace cache1).2 }
        else
          { st1 with
              traceExt := Function.update st.traceExt tc.trace_id
                { tr with cache := some [] } }
      else
        { st1 with
            traceExt := Function.update st.traceExt tc.trace_id
              { tr with cache := some cache1 } }

/-- A sequence of `on_close` calls, applied left to right.  Closes are atomic
with respect to each other: each one holds the closing span's extension lock
throughout and takes the trace's extension lock once for the whole
append-and-flush, so any concurrent execution is equivalent to some
sequence. -/
def close_all (ops : List Nat) (st : SysState) : SysState :=
  ops.foldl on_close st

/-- All records currently owned by the system: the per-span `OtelData` slots,
the per-trace caches, and the already-exported records. -/
def SysState.records (st : SysState) : Multiset OtelData :=
  ↑(st.spanDom.filterMap st.spanOtel)
    + ↑(st.traceDom.flatMap fun t => (st.traceExt t).cache.getD [])
    + ↑st.exported

/-- Well-formedness: registered identifiers are distinct, spans outside the
registry hold no record, and every span's trace context points at a live
trace. -/
def SysState.WF (st : SysState) : Prop :=
  st.spanDom.Nodup ∧ st.traceDom.Nodup ∧
    (∀ s, s ∉ st.spanDom → st.spanOtel s = none) ∧
    (∀ s tc, st.spanTctx s = some tc → tc.trace_id ∈ st.traceDom)

/-- The value a reader that scans for the most recent occurrence of a key
obtains from an attribute list. -/
def lastValueForKey (attrs : List KeyValue) (k : RStr) : Option AttrValue :=
  ((attrs.reverse).find? fun kv => kv.key == k).map KeyValue.value

/-- A concrete builder as `on_new_span` leaves it: empty attribute vector
present, the given span id assigned eagerly. -/
def mkBuilder (n : Nat) : SpanBuilder :=
  { name := [], span_kind := none, status := .unset, trace_id := none,
    span_id := some n, attributes := some [], events := none, links := none }

/-- A concrete record with builder span id `n` and parent context `p`. -/
def mkRecord (n p : Nat) : OtelData :=
  { builder := mkBuilder n, parent_cx := p }

/-- A concrete builder with an empty attribute vector. -/
def emptyBuilder : SpanBuilder := mkBuilder 0

/-- A concrete event with empty name and attributes. -/
def emptyEvent : OtelEvent := { name := [], attributes := [] }

/-- Concrete system state: root span `1` (trace `7`, no parent) still open,
two descendant records already buffered in trace `7`'s cache, sample
decision as given. -/
def c1State (dec : Option SampleDecision) : SysState :=
  { spanOtel := fun s => if s = 1 then some (mkRecord 10 0) else none
    spanTctx := fun s => if s = 1 then some ⟨10, 7, none⟩ else none
    traceExt := fun t =>
      if t = 7 then { cache := some [mkRecord 11 10, mkRecord 12 10],
                      sample_decision := dec }
      else { cache := none, sample_decision := none }
    spanDom := [1]
    traceDom := [7]
    exported := [] }

/-- The record of a descendant span that closes late. -/
def lateRecord : OtelData := mkRecord 20 10

/-- Concrete system state after trace `7`'s root has flushed: the cache is
present but empty, nothing exported yet in this snapshot, and the
descendant span `2` (parent `10`) is still open. -/
def lateState : SysState :=
  { spanOtel := fun s => if s = 2 then some lateRecord else none
    spanTctx := fun s => if s = 2 then some ⟨20, 7, some 10⟩ else none
    traceExt := fun t =>
      if t = 7 then { cache := some [], sample_decision := none }
      else { cache := none, sample_decision := none }
    spanDom := [2]
    traceDom := [7]
    exported := [] }

/-- The three-level error of the layer.rs test `records_error_fields`. -/
def testError : DynError :=
  .cons "user error".toList
    (.cons "intermediate error".toList (.leaf "base error".toList))

/-! ### Helper lemmas for the record-accounting invariant -/

theorem flatMap_congr_mem {α : Type} {l : List Nat} {f g : Nat → List α}
    (h : ∀ x ∈ l, f x = g x) : l.flatMap f = l.flatMap g := by
  induction l with
  | nil => rfl
  | cons a rest ih =>
    simp only [List.flatMap_cons]
    rw [h a (List.mem_cons_self a rest), ih fun x hx => h x (List.mem_cons_of_mem a hx)]

theorem filterMap_update_none_add {α : Type} (dom : List Nat)
    (f : Nat → Option α) (s : Nat) (d : α)
    (hnd : dom.Nodup) (hs : s ∈ dom) (hf : f s = some d) :
    (↑(dom.filterMap (Function.update f s none)) : Multiset α) + {d}
      = ↑(dom.filterMap f) := by
  induction dom with
  | nil => cases hs
  | cons a rest ih =>
    rcases List.nodup_cons.mp hnd with ⟨ha, hr⟩
    rcases eq_or_ne s a with rfl | hne
    · have hrest : rest.filterMap (Function.update f s none) = rest.filterMap f :=
        List.filterMap_congr fun x hx =>
          Function.update_noteq (ne_of_mem_of_not_mem hx ha) _ _
      simp only [List.filterMap_cons, Function.update_same, hf, hrest]
      rw [add_comm, Multiset.singleton_add, Multiset.cons_coe]
    · have hs' : s ∈ rest := by
        rcases List.mem_cons.mp hs with h | h
        · exact absurd h hne
        · exact h
      have hhead : Function.update f s none a = f a :=
        Function.update_noteq (fun h => hne h.symm) _ _
      cases hfa : f a with
      | none => simpa [List.filterMap_cons, hhead, hfa] using ih hr hs'
      | some b =>
        simp only [List.filterMap_cons, hhead, hfa]
        rw [← Multiset.cons_coe, ← Multiset.cons_coe, Multiset.cons_add, ih hr hs']

theorem flatMap_update_add {α : Type} (dom : List Nat) (g : Nat → List α)
    (t : Nat) (L : List α) (hnd : dom.Nodup) (ht : t ∈ dom) :
    (↑(dom.flatMap (Function.update g t L)) : Multiset α) + ↑(g t)
      = ↑(dom.flatMap g) + ↑L := by
  induction dom with
  | nil => cases ht
  | cons a rest ih =>
    rcases List.nodup_cons.mp hnd with ⟨ha, hr⟩
    rcases eq_or_ne t a with rfl | hne
    · have hrest : rest.flatMap (Function.update g t L) = rest.flatMap g :=
        flatMap_congr_mem fun x hx =>
          Function.update_noteq (ne_of_mem_of_not_mem hx ha) _ _
      simp only [List.flatMap_cons, Function.update_same, hrest, ← Multiset.coe_add]
      abel
    · have ht' : t ∈ rest := by
        rcases List.mem_cons.mp ht with h | h
        · exact absurd h hne
        · exact h
      have hhead : Function.update g t L a = g a :=
        Function.update_noteq (fun h => hne h.symm) _ _
      simp only [List.flatMap_cons, hhead, ← Multiset.coe_add]
      rw [add_assoc, ih hr ht', ← add_assoc]

theorem update_comp_cache (te : Nat → TraceStore) (tid : Nat) (ts : TraceStore) :
    (fun t => ((Function.update te tid ts) t).cache.getD []) =
      Function.update (fun t => ((te t).cache.getD [])) tid (ts.cache.getD []) := by
  funext x
  rcases eq_or_ne x tid with rfl | h
  · simp [Function.update_same]
  · simp [Function.update_noteq h]

/-! ### Shape lemmas: the four active branches of `on_close` -/

theorem on_close_no_record (st : SysState) (sid : Nat)
    (hO : st.spanOtel sid = none) : on_close st sid = st := by
  simp [on_close, hO]

theorem on_close_no_tctx (st : SysState) (sid : Nat) (data : OtelData)
    (hO : st.spanOtel sid = some data) (hT : st.spanTctx sid = none) :
    on_close st sid =
      { st with
          spanOtel := Function.update st.spanOtel sid none,
          exported := st.exported ++ [data] } := by
  simp [on_close, hO, hT]

theorem on_close_nonroot (st : SysState) (sid : Nat) (data : OtelData)
    (tc : TraceContext)
    (hO : st.spanOtel sid = some data) (hT : st.spanTctx sid = some tc)
    (hp : tc.parent_id ≠ none) :
    on_close st sid =
      { st with
          spanOtel := Function.update st.spanOtel sid none,
          traceExt := Function.update st.traceExt tc.trace_id
            { st.traceExt tc.trace_id with
                cache := some ((st.traceExt tc.trace_id).cache.getD [] ++ [data]) } } := by
  simp [on_close, hO, hT, hp]

theorem on_close_root_keep (st : SysState) (sid : Nat) (data : OtelData)
    (tc : TraceContext)
    (hO : st.spanOtel sid = some data) (hT : st.spanTctx sid = some tc)
    (hp : tc.parent_id = none)
    (hrec : ((st.traceExt tc.trace_id).sample_decision.map
      SampleDecision.record_trace).getD true = true) :
    on_close st sid =
      { st with
          spanOtel := Function.update st.spanOtel sid none,
          traceExt := Function.update st.traceExt tc.trace_id
            { st.traceExt tc.trace_id with cache := some [] },
          exported := st.exported
            ++ ((st.traceExt tc.trace_id).cache.getD [] ++ [data]) } := by
  simp [on_close, hO, hT, hp, hrec, TraceCache.send_trace]

theorem on_close_root_drop (st : SysState) (sid : Nat) (data : OtelData)
    (tc : TraceContext)
    (hO : st.spanOtel sid = some data) (hT : st.spanTctx sid = some tc)
    (hp : tc.parent_id = none)
    (hrec : ((st.traceExt tc.trace_id).sample_decision.map
      SampleDecision.record_trace).getD true = false) :
    on_close st sid =
      { st with
          spanOtel := Function.update st.spanOtel sid none,
          traceExt := Function.update st.traceExt tc.trace_id
            { st.traceExt tc.trace_id with cache := some [] } } := by
  simp [on_close, hO, hT, hp, hrec, TraceCache.send_trace]

/-! ### The records owned by the system never multiply -/

theorem records_on_close_le (st : SysState) (sid : Nat) (hwf : st.WF) :
    (on_close st sid).records ≤ st.records := by
  obtain ⟨hsd, htd, hout, htcd⟩ := hwf
  cases hO : st.spanOtel sid with
  | none => rw [on_close_no_record st sid hO]
  | some data =>
    have hsid : sid ∈ st.spanDom := by
      by_contra h
      rw [hout sid h] at hO
      exact Option.noConfusion hO
    have hspans :
        (↑(st.spanDom.filterMap (Function.update st.spanOtel sid none)) : Multiset OtelData)
            + {data}
          = ↑(st.spanDom.filterMap st.spanOtel) :=
      filterMap_update_none_add _ _ _ _ hsd hsid hO
    cases hT : st.spanTctx sid with
    | none =>
      apply le_of_eq
      rw [on_close_no_tctx st sid data hO hT]
      simp only [SysState.records, ← Multiset.coe_add, Multiset.coe_singleton]
      rw [← hspans]
      abel
    | some tc =>
      have htid : tc.trace_id ∈ st.traceDom := htcd sid tc hT
      by_cases hroot : tc.parent_id = none
      · cases hrec : ((st.traceExt tc.trace_id).sample_decision.map
            SampleDecision.record_trace).getD true with
        | true =>
          apply le_of_eq
          rw [on_close_root_keep st sid data tc hO hT hroot hrec]
          simp only [SysState.records, update_comp_cache, Option.getD_some,
            ← Multiset.coe_add, Multiset.coe_singleton]
          have h0 := flatMap_update_add st.traceDom
            (fun t => ((st.traceExt t).cache.getD [])) tc.trace_id [] htd htid
          simp only [Multiset.coe_nil, add_zero] at h0
          rw [← hspans, ← h0]
          abel
        | false =>
          rw [on_close_root_drop st sid data tc hO hT hroot hrec]
          simp only [SysState.records, update_comp_cache, Option.getD_some]
          have h0 := flatMap_update_add st.traceDom
            (fun t => ((st.traceExt t).cache.getD [])) tc.trace_id [] htd htid
          simp only [Multiset.coe_nil, add_zero] at h0
          calc
            (↑(st.spanDom.filterMap (Function.update st.spanOtel sid none)) : Multiset OtelData)
                + ↑(st.traceDom.flatMap
                    (Function.update (fun t => ((st.traceExt t).cache.getD []))
                      tc.trace_id []))
                + ↑st.exported
              ≤ ↑(st.spanDom.filterMap (Function.update st.spanOtel sid none))
                + ↑(st.traceDom.flatMap
                    (Function.update (fun t => ((st.traceExt t).cache.getD []))
                      tc.trace_id []))
                + ↑st.exported
                + (↑((st.traceExt tc.trace_id).cache.getD []) + {data}) :=
              Multiset.le_add_right _ _
            _ = ↑(st.spanDom.filterMap (Function.update st.spanOtel sid none)) + {data}
                + (↑(st.traceDom.flatMap
                    (Function.update (fun t => ((st.traceExt t).cache.getD []))
                      tc.trace_id []))
                  + ↑((st.traceExt tc.trace_id).cache.getD []))
                + ↑st.exported := by abel
            _ = ↑(st.spanDom.filterMap st.spanOtel)
                + ↑(st.traceDom.flatMap fun t => ((st.traceExt t).cache.getD []))
                + ↑st.exported := by rw [h0, hspans]
      · apply le_of_eq
        rw [on_close_nonroot st sid data tc hO hT hroot]
        simp only [SysState.records, update_comp_cache, Option.getD_some]
        have h1 := flatMap_update_add st.traceDom
          (fun t => ((st.traceExt t).cache.getD [])) tc.trace_id
          ((st.traceExt tc.trace_id).cache.getD [] ++ [data]) htd htid
        simp only [← Multiset.coe_add, Multiset.coe_singleton] at h1
        have h2 :
            (↑(st.traceDom.flatMap
                (Function.update (fun t => ((st.traceExt t).cache.getD []))
                  tc.trace_id ((st.traceExt tc.trace_id).cache.getD [] ++ [data])))
              : Multiset OtelData)
              = ↑(st.traceDom.flatMap fun t => ((st.traceExt t).cache.getD []))
                + {data} := by
          have h3 :
              (↑(st.traceDom.flatMap
                  (Function.update (fun t => ((st.traceExt t).cache.getD []))
                    tc.trace_id ((st.traceExt tc.trace_id).cache.getD [] ++ [data])))
                : Multiset OtelData)
                + ↑((st.traceExt tc.trace_id).cache.getD [])
              = (↑(st.traceDom.flatMap fun t => ((st.traceExt t).cache.getD []))
                  + {data})
                + ↑((st.traceExt tc.trace_id).cache.getD []) := by
            rw [h1]
            abel
          exact add_right_cancel h3
        rw [← hspans, h2]
        abel

theorem WF_on_close (st : SysState) (sid : Nat) (hwf : st.WF) :
    (on_close st sid).WF := by
  obtain ⟨hsd, htd, hout, htcd⟩ := hwf
  have hupd : ∀ s, s ∉ st.spanDom →
      Function.update st.spanOtel sid none s = none := by
    intro s hs
    rcases eq_or_ne s sid with rfl | h
    · exact Function.update_same _ _ _
    · rw [Function.update_noteq h]
      exact hout s hs
  cases hO : st.spanOtel sid with
  | none => rw [on_close_no_record st sid hO]; exact ⟨hsd, htd, hout, htcd⟩
  | some data =>
    cases hT : st.spanTctx sid with
    | none =>
      rw [on_close_no_tctx st sid data hO hT]
      exact ⟨hsd, htd, hupd, htcd⟩
    | some tc =>
      by_cases hroot : tc.parent_id = none
      · cases hrec : ((st.traceExt tc.trace_id).sample_decision.map
            SampleDecision.record_trace).getD true with
        | true =>
          rw [on_close_root_keep st sid data tc hO hT hroot hrec]
          exact ⟨hsd, htd, hupd, htcd⟩
        | false =>
          rw [on_close_root_drop st sid data tc hO hT hroot hrec]
          exact ⟨hsd, htd, hupd, htcd⟩
      · rw [on_close_nonroot st sid data tc hO hT hroot]
        exact ⟨hsd, htd, hupd, htcd⟩

theorem close_all_le (ops : List Nat) (st : SysState) (hwf : st.WF) :
    (close_all ops st).records ≤ st.records ∧ (close_all ops st).WF := by
  induction ops generalizing st with
  | nil => exact ⟨le_refl _, hwf⟩
  | cons o rest ih =>
    have h1 := records_on_close_le st o hwf
    have h2 := WF_on_close st o hwf
    obtain ⟨h3, h4⟩ := ih (on_close st o) h2
    exact ⟨le_trans h3 h1, h4⟩

/-! ### Claim theorems -/

/-- Claim C1: when a root span (parent id absent) closes with `K` descendant
records already buffered, `on_close` exports exactly the `K + 1` buffered
records — each record moved wholesale, so with its own originally captured
parent context, in buffer-append order with the root's record last — when
the trace store holds no `SampleDecision` or its `record_trace` flag is
true; when the flag is false it exports none of them; either way the buffer
is left empty. -/
theorem root_close_flushes_trace (st : SysState) (sid K : Nat) (data : OtelData)
    (tc : TraceContext) (buf : List OtelData)
    (hO : st.spanOtel sid = some data)
    (hT : st.spanTctx sid = some tc)
    (hroot : tc.parent_id = none)
    (hbuf : (st.traceExt tc.trace_id).cache = some buf)
    (hK : buf.length = K) :
    (((st.traceExt tc.trace_id).sample_decision = none ∨
        (st.traceExt tc.trace_id).sample_decision = some ⟨true⟩) →
      (on_close st sid).exported = st.exported ++ (buf ++ [data]) ∧
      (on_close st sid).exported.length = st.exported.length + (K + 1) ∧
      ((on_close st sid).traceExt tc.trace_id).cache = some []) ∧
    ((st.traceExt tc.trace_id).sample_decision = some ⟨false⟩ →
      (on_close st sid).exported = st.exported ∧
      ((on_close st sid).traceExt tc.trace_id).cache = some []) := by
  constructor
  · intro hdec
    have hrec : ((st.traceExt tc.trace_id).sample_decision.map
        SampleDecision.record_trace).getD true = true := by
      rcases hdec with h | h <;> rw [h] <;> rfl
    rw [on_close_root_keep st sid data tc hO hT hroot hrec]
    refine ⟨by rw [hbuf]; rfl, ?_, by simp⟩
    simp [hbuf, hK, Nat.add_assoc]
  · intro hdec
    have hrec : ((st.traceExt tc.trace_id).sample_decision.map
        SampleDecision.record_trace).getD true = false := by
      rw [hdec]; rfl
    rw [on_close_root_drop st sid data tc hO hT hroot hrec]
    exact ⟨rfl, by simp⟩

/-- Witness for C1 at a concrete state: a root with two buffered descendant
records exports all three in order when the decision is absent, and none
when `record_trace` is false. -/
theorem root_close_flushes_trace_witness :
    (on_close (c1State none) 1).exported
        = [mkRecord 11 10, mkRecord 12 10, mkRecord 10 0] ∧
    (on_close (c1State none) 1).exported.length = 3 ∧
    ((on_close (c1State none) 1).traceExt 7).cache = some [] ∧
    (on_close (c1State (some ⟨false⟩)) 1).exported = [] ∧
    ((on_close (c1State (some ⟨false⟩)) 1).traceExt 7).cache = some [] := by
  have h1 := root_close_flushes_trace (c1State none) 1 2 (mkRecord 10 0)
      ⟨10, 7, none⟩ [mkRecord 11 10, mkRecord 12 10] rfl rfl rfl rfl rfl
  have h2 := root_close_flushes_trace (c1State (some ⟨false⟩)) 1 2 (mkRecord 10 0)
      ⟨10, 7, none⟩ [mkRecord 11 10, mkRecord 12 10] rfl rfl rfl rfl rfl
  obtain ⟨ha, hb, hc⟩ := h1.1 (Or.inl rfl)
  obtain ⟨hd, he⟩ := h2.2 rfl
  exact ⟨by simpa using ha, by simpa using hb, hc, hd, he⟩

/-- Claim C2: across any sequence of closes (covering repeated closes of the
same spans; closes are atomic, so concurrent interleavings are equivalent to
sequences), every record is handed to the exporter at most once — starting
from any well-formed state whose records are pairwise distinct, the exported
list never contains a record twice. -/
theorem exported_at_most_once (st : SysState) (ops : List Nat)
    (hwf : st.WF) (hnd : st.records.Nodup) :
    (close_all ops st).exported.Nodup := by
  obtain ⟨hle, _⟩ := close_all_le ops st hwf
  have hsub : (↑(close_all ops st).exported : Multiset OtelData)
      ≤ (close_all ops st).records := by
    simp only [SysState.records]
    exact le_add_self
  have hnd' := Multiset.nodup_of_le (le_trans hsub hle) hnd
  exact Multiset.coe_nodup.mp hnd'

/-- Witness for C2: closing span `1` three times over (repeat closes of an
already-closed span) still exports no record twice. -/
theorem exported_at_most_once_witness :
    (close_all [1, 1, 1] (c1State none)).exported.Nodup := by
  apply exported_at_most_once
  · refine ⟨by decide, by decide, ?_, ?_⟩
    · intro s hs
      have h1 : s ≠ 1 := by
        intro h
        exact hs (h ▸ List.mem_singleton_self 1)
      simp [c1State, h1]
    · intro s tc htc
      by_cases h1 : s = 1
      · subst h1
        have h2 : (c1State none).spanTctx 1 = some ⟨10, 7, none⟩ := rfl
        rw [h2] at htc
        cases htc
        decide
      · have h2 : (c1State none).spanTctx s = none := by simp [c1State, h1]
        rw [h2] at htc
        exact Option.noConfusion htc
  · decide

/-- Claim C3 counterexample: a descendant (parent id present) closing after
its trace's root has already flushed (the cache is present and empty) is NOT
exported standalone: `on_close` consumes its record, exports nothing, and
the record sits in the trace buffer instead. -/
theorem late_descendant_not_standalone :
    (on_close lateState 2).spanOtel 2 = none ∧
    (on_close lateState 2).exported = [] ∧
    ((on_close lateState 2).traceExt 7).cache = some [lateRecord] := by decide

/-- Claim C3, amended: a non-root span that closes after its trace's root
has flushed and cleared the buffer appends its record to the (empty) trace
buffer and exports nothing; the record stays buffered, unexported. -/
theorem late_descendant_buffers (st : SysState) (sid : Nat) (data : OtelData)
    (tc : TraceContext) (p : Nat)
    (hO : st.spanOtel sid = some data)
    (hT : st.spanTctx sid = some tc)
    (hp : tc.parent_id = some p)
    (hflushed : (st.traceExt tc.trace_id).cache = some []) :
    (on_close st sid).exported = st.exported ∧
    ((on_close st sid).traceExt tc.trace_id).cache = some [data] ∧
    (on_close st sid).spanOtel sid = none := by
  have hp' : tc.parent_id ≠ none := by rw [hp]; exact Option.noConfusion
  rw [on_close_nonroot st sid data tc hO hT hp']
  refine ⟨rfl, ?_, by simp⟩
  simp [hflushed]

/-- Witness for the amended C3 at the concrete post-flush state. -/
theorem late_descendant_buffers_witness :
    lateState.spanOtel 2 = some lateRecord ∧
    (on_close lateState 2).exported = lateState.exported ∧
    ((on_close lateState 2).traceExt 7).cache = some [lateRecord] := by
  have h := late_descendant_buffers lateState 2 lateRecord ⟨20, 7, some 10⟩ 10
      rfl rfl rfl rfl
  exact ⟨rfl, h.1, h.2.1⟩

/-- Claim C9: closing a span whose extension store holds no `OtelData`
record is a complete no-op: the state (exports, buffers, all stores) is
unchanged. -/
theorem close_without_record_noop (st : SysState) (sid : Nat)
    (hO : st.spanOtel sid = none) : on_close st sid = st :=
  on_close_no_record st sid hO

/-- Witness for C9: span `3` of the concrete state has no record; closing it
changes nothing. -/
theorem close_without_record_noop_witness :
    lateState.spanOtel 3 = none ∧ on_close lateState 3 = lateState :=
  ⟨rfl, close_without_record_noop lateState 3 rfl⟩

/-- Claim C4 (code bug): status parsing does not always avoid failing the
span.  The `"unset"`/`"ok"` arms and the case-insensitive `"error"` prefix
arm behave as claimed, and unmatched strings of at least five bytes fall
back to `None` (hence the default status) — but any other string shorter
than five bytes, e.g. `"okay"`, panics on the out-of-bounds byte slice
`s[0.."error".len()]`, and the panic propagates through
`SpanAttributeVisitor::record_str`. -/
theorem status_parse_panics_on_short_strings :
    string_to_status "okay".toList = .panics ∧
    SpanAttributeVisitor.record_str emptyBuilder SPAN_STATUS "okay".toList
      = .panics ∧
    string_to_status "UnSeT".toList = .ok (some .unset) ∧
    string_to_status "OK".toList = .ok (some .ok) ∧
    string_to_status "Error: boom".toList
      = .ok (some (.error "Error: boom".toList)) ∧
    string_to_status "failed".toList = .ok none := by decide

/-- Claim C5: a span created under a parent whose store holds a
`TraceContext` derives a child context with the parent's trace id, parent id
equal to the parent's span id, and a fresh span id, consuming exactly one
fresh identifier (no new trace id); a span with no resolved parent gets a
root context with `parent_id = none` and a fresh trace id. -/
theorem child_context_shares_trace (p : TraceContext) (g : IdGen)
    (used : List Nat) (hused : ∀ i ∈ used, i < g) :
    ((on_new_span_trace_context (some (some p)) g).1.trace_id = p.trace_id ∧
      (on_new_span_trace_context (some (some p)) g).1.parent_id = some p.span_id ∧
      (on_new_span_trace_context (some (some p)) g).1.span_id ∉ used ∧
      (on_new_span_trace_context (some (some p)) g).2 = g + 1) ∧
    ((on_new_span_trace_context none g).1.parent_id = none ∧
      (on_new_span_trace_context none g).1.trace_id ∉ used) := by
  refine ⟨⟨rfl, rfl, ?_, rfl⟩, rfl, ?_⟩
  · intro hmem
    exact lt_irrefl g (hused g hmem)
  · intro hmem
    have h := hused (g + 1) hmem
    omega

/-- Witness for C5 at concrete identifiers. -/
theorem child_context_shares_trace_witness :
    ((on_new_span_trace_context (some (some ⟨2, 1, none⟩)) 5).1.trace_id = 1 ∧
      (on_new_span_trace_context (some (some ⟨2, 1, none⟩)) 5).1.parent_id = some 2 ∧
      (on_new_span_trace_context (some (some ⟨2, 1, none⟩)) 5).1.span_id
        ∉ [0, 1, 2, 3, 4] ∧
      (on_new_span_trace_context (some (some ⟨2, 1, none⟩)) 5).2 = 6) ∧
    ((on_new_span_trace_context none 5).1.parent_id = none ∧
      (on_new_span_trace_context none 5).1.trace_id ∉ [0, 1, 2, 3, 4]) :=
  child_context_shares_trace ⟨2, 1, none⟩ 5 [0, 1, 2, 3, 4] (by decide)

/-- Claim C6 counterexample: recording the same attribute key twice does NOT
leave at most one entry for that key — `SpanAttributeVisitor::record` plainly
appends, so both entries remain (and the first one still holds the old
value). -/
theorem record_duplicate_key_keeps_both :
    (SpanAttributeVisitor.record
        (SpanAttributeVisitor.record emptyBuilder
          ⟨"k".toList, .str "v1".toList⟩)
        ⟨"k".toList, .str "v2".toList⟩).attributes
      = some [⟨"k".toList, .str "v1".toList⟩, ⟨"k".toList, .str "v2".toList⟩] ∧
    ((SpanAttributeVisitor.record
        (SpanAttributeVisitor.record emptyBuilder
          ⟨"k".toList, .str "v1".toList⟩)
        ⟨"k".toList, .str "v2".toList⟩).attributes.getD []).countP
        (fun kv => kv.key == "k".toList) = 2 := by decide

/-- Claim C6, amended: recording appends an entry to the attribute list, so
duplicate keys are kept in write order; a reader that takes the most recent
occurrence of a key obtains the last value written. -/
theorem record_appends_last_write_last (b : SpanBuilder) (l : List KeyValue)
    (kv : KeyValue) (h : b.attributes = some l) :
    (SpanAttributeVisitor.record b kv).attributes = some (l ++ [kv]) ∧
    lastValueForKey (l ++ [kv]) kv.key = some kv.value := by
  constructor
  · simp [SpanAttributeVisitor.record, h]
  · simp [lastValueForKey, List.find?]

/-- Witness for the amended C6. -/
theorem record_appends_last_write_last_witness :
    emptyBuilder.attributes = some [] ∧
    (SpanAttributeVisitor.record emptyBuilder
        ⟨"k".toList, .str "v2".toList⟩).attributes
      = some [⟨"k".toList, .str "v2".toList⟩] ∧
    lastValueForKey [⟨"k".toList, .str "v2".toList⟩] "k".toList
      = some (.str "v2".toList) := by
  have h := record_appends_last_write_last emptyBuilder []
      ⟨"k".toList, .str "v2".toList⟩ rfl
  exact ⟨rfl, by simpa using h.1, by simpa using h.2⟩

/-- Claim C7: the reserved field names divert to typed slots and never touch
the attribute list — `otel.name` sets the builder's name, `otel.kind` the
kind slot, `otel.status` the status slot (whenever parsing returns), and on
events the field `"message"` sets the event's name; in each case every other
part of the builder/event, the attributes included, is unchanged. -/
theorem reserved_fields_divert (b : SpanBuilder) (e : OtelEvent) (v : RStr)
    (stv : Option Status) (hst : string_to_status v = .ok stv) :
    SpanAttributeVisitor.record_str b SPAN_NAME_FIELD v
      = .ok { b with name := v } ∧
    SpanAttributeVisitor.record_str b SPAN_KIND_FIELD v
      = .ok { b with span_kind := str_to_span_kind v } ∧
    SpanAttributeVisitor.record_str b SPAN_STATUS v
      = .ok { b with status := stv.getD Status.unset } ∧
    SpanEventVisitor.record_str e "message".toList v = { e with name := v } := by
  have h1 : SPAN_KIND_FIELD ≠ SPAN_NAME_FIELD := by decide
  have h2 : SPAN_STATUS ≠ SPAN_NAME_FIELD := by decide
  have h3 : SPAN_STATUS ≠ SPAN_KIND_FIELD := by decide
  refine ⟨?_, ?_, ?_, ?_⟩
  · simp [SpanAttributeVisitor.record_str]
  · simp [SpanAttributeVisitor.record_str, h1]
  · simp [SpanAttributeVisitor.record_str, h2, h3, hst]
  · simp [SpanEventVisitor.record_str]

/-- Witness for C7 with the value `"OK"`. -/
theorem reserved_fields_divert_witness :
    string_to_status "OK".toList = .ok (some .ok) ∧
    SpanAttributeVisitor.record_str emptyBuilder SPAN_NAME_FIELD "OK".toList
      = .ok { emptyBuilder with name := "OK".toList } ∧
    SpanAttributeVisitor.record_str emptyBuilder SPAN_KIND_FIELD "OK".toList
      = .ok { emptyBuilder with span_kind := str_to_span_kind "OK".toList } ∧
    SpanAttributeVisitor.record_str emptyBuilder SPAN_STATUS "OK".toList
      = .ok { emptyBuilder with status := Status.ok } ∧
    SpanEventVisitor.record_str emptyEvent "message".toList "OK".toList
      = { emptyEvent with name := "OK".toList } := by
  have h := reserved_fields_divert emptyBuilder emptyEvent "OK".toList
      (some .ok) (by decide)
  exact ⟨by decide, h.1, h.2.1, h.2.2.1, h.2.2.2⟩

/-- Claim C8: recording an error under field name `F` produces exactly two
attributes, appended in order: `F` with the error's display string, and
`F.chain` with the ordered cause chain (outermost cause first, the error's
own message excluded). -/
theorem record_error_emits_pair (b : SpanBuilder) (l : List KeyValue)
    (f : RStr) (err : DynError) (h : b.attributes = some l) :
    (SpanAttributeVisitor.record_error b f err).attributes
      = some (l ++ [⟨f, .str err.display⟩,
                    ⟨f ++ ".chain".toList, .strArr err.causeChain⟩]) := by
  simp [SpanAttributeVisitor.record_error, SpanAttributeVisitor.record, h]

/-- Witness for C8 on the three-level test error: the chain lists the two
causes outermost-first and omits the error's own message. -/
theorem record_error_emits_pair_witness :
    (SpanAttributeVisitor.record_error emptyBuilder "error".toList
        testError).attributes
      = some [⟨"error".toList, .str "user error".toList⟩,
              ⟨"error.chain".toList,
                .strArr ["intermediate error".toList, "base error".toList]⟩] := by
  rw [record_error_emits_pair emptyBuilder [] "error".toList testError rfl]
  decide

/-- Claim C10: `add_link_with_attributes` (and `add_link`) leave the span's
record unchanged when the given span context is not valid, and append one
link exactly when it is valid. -/
theorem add_link_requires_valid_context (d : OtelData) (cx : SpanContext)
    (attrs : List KeyValue) :
    (cx.is_valid = false →
      add_link_with_attributes d cx attrs = d ∧ add_link d cx = d) ∧
    (cx.is_valid = true →
      (add_link_with_attributes d cx attrs).builder.links
          = some (d.builder.links.getD [] ++ [⟨cx, attrs⟩]) ∧
      (add_link d cx).builder.links
          = some (d.builder.links.getD [] ++ [⟨cx, []⟩])) := by
  constructor
  · intro h
    constructor <;> simp [add_link, add_link_with_attributes, h]
  · intro h
    constructor <;> simp [add_link, add_link_with_attributes, h]

/-- Witness for C10: an invalid context (zero trace id) appends nothing; a
valid one appends its link. -/
theorem add_link_requires_valid_context_witness :
    (SpanContext.is_valid ⟨0, 5⟩ = false ∧
      add_link_with_attributes (mkRecord 10 0) ⟨0, 5⟩ [] = mkRecord 10 0 ∧
      add_link (mkRecord 10 0) ⟨0, 5⟩ = mkRecord 10 0) ∧
    (SpanContext.is_valid ⟨3, 4⟩ = true ∧
      (add_link_with_attributes (mkRecord 10 0) ⟨3, 4⟩ []).builder.links
        = some [⟨⟨3, 4⟩, []⟩]) := by
  have h1 := (add_link_requires_valid_context (mkRecord 10 0) ⟨0, 5⟩ []).1
      (by decide)
  have h2 := (add_link_requires_valid_context (mkRecord 10 0) ⟨3, 4⟩ []).2
      (by decide)
  exact ⟨⟨by decide, h1.1, h1.2⟩, ⟨by decide, by simpa using h2.1⟩⟩

end TailSampling
